import Mathlib

/-!
Shallow embedding of the header enum_flags.hpp: the type kt::enum_flags<Enum, N>,
a wrapper around std::bitset<N> indexed by enumerators under the linear
convention.  An N-bit std::bitset is modelled as a natural number below 2 ^ N;
enumerator arguments (cast to std::size_t by the code) are modelled as elements
of Fin N, the in-contract case of the documented precondition 0 <= e < width.
-/

namespace kt

/-- Population count: number of set bits, computed by the binary recurrence
(low bit plus the count of the shifted value).  The first argument is fuel
making the recursion structural; popCount below supplies enough fuel. -/
def popCountAux : Nat → Nat → Nat
  | 0, _ => 0
  | _ + 1, 0 => 0
  | fuel + 1, n + 1 => (n + 1) % 2 + popCountAux fuel ((n + 1) / 2)

/-- Number of set bits of a natural number, as std::bitset::count reports. -/
def popCount (n : Nat) : Nat := popCountAux n n

/-- Model of std::bitset<N>: a fixed field of N bits, held as a natural
number strictly below 2 ^ N. -/
structure Bitset (N : Nat) where
  val : Nat
  isLt : val < 2 ^ N

/-- Two bitsets with the same value are equal. -/
theorem Bitset.ext_val {N : Nat} {a b : Bitset N} (h : a.val = b.val) : a = b := by
  cases a
  cases b
  simp_all

/-- Default-constructed std::bitset: all bits clear. -/
def Bitset.zero (N : Nat) : Bitset N := ⟨0, Nat.two_pow_pos N⟩

/-- Bitwise AND of two bitsets (operator& on std::bitset). -/
def Bitset.land {N : Nat} (a b : Bitset N) : Bitset N :=
  ⟨a.val &&& b.val, Nat.and_lt_two_pow a.val b.isLt⟩

/-- Bitwise OR of two bitsets (operator| on std::bitset). -/
def Bitset.lor {N : Nat} (a b : Bitset N) : Bitset N :=
  ⟨a.val ||| b.val, Nat.or_lt_two_pow a.isLt b.isLt⟩

/-- Bitwise XOR of two bitsets (operator^ on std::bitset). -/
def Bitset.xor {N : Nat} (a b : Bitset N) : Bitset N :=
  ⟨a.val ^^^ b.val, Nat.xor_lt_two_pow a.isLt b.isLt⟩

/-- std::bitset::set(pos): set the bit at position pos (in-contract: pos < N). -/
def Bitset.setBit {N : Nat} (a : Bitset N) (pos : Fin N) : Bitset N :=
  ⟨a.val ||| 2 ^ pos.val,
    Nat.or_lt_two_pow a.isLt (Nat.pow_lt_pow_right (by decide) pos.isLt)⟩

/-- std::bitset::flip with no argument: invert every one of the N bits. -/
def Bitset.flipAll {N : Nat} (a : Bitset N) : Bitset N :=
  ⟨a.val ^^^ (2 ^ N - 1),
    Nat.xor_lt_two_pow a.isLt (Nat.sub_lt (Nat.two_pow_pos N) (by decide))⟩

/-- std::bitset::count: number of set bits. -/
def Bitset.count {N : Nat} (a : Bitset N) : Nat := popCount a.val

/-- std::bitset::any: whether at least one bit is set. -/
def Bitset.anyb {N : Nat} (a : Bitset N) : Bool := a.val != 0

/-- std::bitset::none: whether no bit is set. -/
def Bitset.noneb {N : Nat} (a : Bitset N) : Bool := a.val == 0

/-- The struct kt::enum_flags<Enum, N>: a single member, std::bitset<N> bits. -/
structure enum_flags (N : Nat) where
  bits : Bitset N

/-- Two enum_flags with equal bits members are equal. -/
theorem enum_flags.ext_bits {N : Nat} {a b : enum_flags N} (h : a.bits = b.bits) :
    a = b := by
  cases a
  cases b
  simp_all

namespace enum_flags

/-- The default constructor: default std::bitset, all bits clear. -/
def mk0 (N : Nat) : enum_flags N := ⟨Bitset.zero N⟩

/-- Constructor from a single enumerator flag: bits.set((std::size_t)flag). -/
def ofFlag (N : Nat) (flag : Fin N) : enum_flags N := ⟨(Bitset.zero N).setBit flag⟩

/-- Member test(flags): (bits & flags.bits) == flags.bits. -/
def test {N : Nat} (self flags : enum_flags N) : Bool :=
  (self.bits.land flags.bits).val == flags.bits.val

/-- The no-argument overload of test: bits.count(). -/
def testCount {N : Nat} (self : enum_flags N) : Nat := self.bits.count

/-- Member set(flags): bits |= flags.bits (returning the updated value). -/
def set {N : Nat} (self flags : enum_flags N) : enum_flags N :=
  ⟨self.bits.lor flags.bits⟩

/-- Member reset(flags): bits &= flags.bits.flip(), where flags is a by-value
copy whose bitset is flipped in full. -/
def reset {N : Nat} (self flags : enum_flags N) : enum_flags N :=
  ⟨self.bits.land flags.bits.flipAll⟩

/-- Member flip(flags): bits ^= flags.bits. -/
def flip {N : Nat} (self flags : enum_flags N) : enum_flags N :=
  ⟨self.bits.xor flags.bits⟩

/-- Modelled from the spec: the no-argument overload flip() is declared in the
header but its definition is absent from the source under src/; the spec says
flip with no argument inverts every bit. -/
def flip0 {N : Nat} (self : enum_flags N) : enum_flags N := ⟨self.bits.flipAll⟩

/-- Static member inverse(): enum_flags().flip(). -/
def inverse (N : Nat) : enum_flags N := (mk0 N).flip0

/-- Modelled from the spec: the no-argument overload reset() is declared in the
header but its definition is absent from the source under src/; the spec
describes reset(mask = universe) as AND with the complement of mask and says
the no-argument form clears everything, so it is reset at the universe mask. -/
def reset0 {N : Nat} (self : enum_flags N) : enum_flags N := self.reset (inverse N)

/-- Member all(flags): (flags.bits & bits) == bits. -/
def all {N : Nat} (self flags : enum_flags N) : Bool :=
  (flags.bits.land self.bits).val == self.bits.val

/-- Member any(flags): (flags.bits & bits).any(). -/
def any {N : Nat} (self flags : enum_flags N) : Bool :=
  (flags.bits.land self.bits).anyb

/-- Member none(flags): (flags.bits & bits).none(). -/
def none {N : Nat} (self flags : enum_flags N) : Bool :=
  (flags.bits.land self.bits).noneb

/-- Member count(flags): (flags.bits & bits).count(). -/
def count {N : Nat} (self flags : enum_flags N) : Nat :=
  (flags.bits.land self.bits).count

/-- count() at its default argument inverse(). -/
def count0 {N : Nat} (self : enum_flags N) : Nat := self.count (inverse N)

/-- any() at its default argument inverse(). -/
def any0 {N : Nat} (self : enum_flags N) : Bool := self.any (inverse N)

/-- none() at its default argument inverse(). -/
def none0 {N : Nat} (self : enum_flags N) : Bool := self.none (inverse N)

/-- Free operator== on enum_flags: lhs.bits == rhs.bits. -/
def eqb {N : Nat} (lhs rhs : enum_flags N) : Bool := lhs.bits.val == rhs.bits.val

end enum_flags

/-- popCountAux maps zero to zero at any fuel. -/
theorem popCountAux_zero {fuel : Nat} : popCountAux fuel 0 = 0 := by
  cases fuel <;> rfl

/-- popCountAux is independent of the fuel as long as the fuel suffices. -/
theorem popCountAux_fuel : ∀ (f₁ : Nat) {n f₂ : Nat}, n ≤ f₁ → n ≤ f₂ →
    popCountAux f₁ n = popCountAux f₂ n := by
  intro f₁
  induction f₁ with
  | zero =>
    intro n f₂ h₁ _
    have hn : n = 0 := Nat.le_zero.mp h₁
    subst hn
    rw [popCountAux_zero, popCountAux_zero]
  | succ f ih =>
    intro n f₂ h₁ h₂
    cases n with
    | zero => rw [popCountAux_zero, popCountAux_zero]
    | succ m =>
      cases f₂ with
      | zero => omega
      | succ g =>
        show (m + 1) % 2 + popCountAux f ((m + 1) / 2) =
            (m + 1) % 2 + popCountAux g ((m + 1) / 2)
        have hd : (m + 1) / 2 ≤ m := by omega
        rw [ih (Nat.le_trans hd (Nat.le_of_succ_le_succ h₁))
            (Nat.le_trans hd (Nat.le_of_succ_le_succ h₂))]

/-- The binary recurrence satisfied by popCount. -/
theorem popCount_rec {n : Nat} (h : n ≠ 0) :
    popCount n = n % 2 + popCount (n / 2) := by
  cases n with
  | zero => exact absurd rfl h
  | succ m =>
    show popCountAux (m + 1) (m + 1) = (m + 1) % 2 + popCountAux ((m + 1) / 2) ((m + 1) / 2)
    have step : popCountAux (m + 1) (m + 1) = (m + 1) % 2 + popCountAux m ((m + 1) / 2) := rfl
    rw [step]
    congr 1
    exact popCountAux_fuel m (by omega) (Nat.le_refl _)

/-- popCount of a number below 2 ^ k is the sum of its low k bits. -/
theorem popCount_eq_sum : ∀ (k : Nat) {n : Nat}, n < 2 ^ k →
    popCount n = ∑ i ∈ Finset.range k, (if n.testBit i then 1 else 0) := by
  intro k
  induction k with
  | zero =>
    intro n hn
    have hn0 : n = 0 := by omega
    subst hn0
    rfl
  | succ k ih =>
    intro n hn
    by_cases h0 : n = 0
    · subst h0
      simp [popCount, popCountAux_zero]
    · rw [popCount_rec h0]
      have hdiv : n / 2 < 2 ^ k := by
        rw [Nat.pow_succ] at hn
        omega
      rw [ih hdiv, Finset.sum_range_succ']
      have hbit0 : (if n.testBit 0 then (1 : Nat) else 0) = n % 2 := by
        rcases Nat.mod_two_eq_zero_or_one n with h | h <;> simp [Nat.testBit_zero, h]
      have hsucc : ∀ i, (if n.testBit (i + 1) then (1 : Nat) else 0) =
          if (n / 2).testBit i then 1 else 0 := by
        intro i
        rw [Nat.testBit_add_one]
      rw [hbit0]
      simp only [hsucc]
      exact Nat.add_comm _ _

/-- popCount of a power of two is one. -/
theorem popCount_two_pow : ∀ e : Nat, popCount (2 ^ e) = 1 := by
  intro e
  induction e with
  | zero => rfl
  | succ k ih =>
    have hne : (2 : Nat) ^ (k + 1) ≠ 0 := Nat.pos_iff_ne_zero.mp (Nat.two_pow_pos _)
    rw [popCount_rec hne, Nat.pow_succ, Nat.mul_mod_left, Nat.mul_div_cancel _ (by decide)]
    rw [Nat.zero_add]
    exact ih

/-- The universe mask inverse() holds the value 2 ^ N - 1. -/
theorem inverse_val {N : Nat} : (enum_flags.inverse N).bits.val = 2 ^ N - 1 := by
  show (0 ^^^ (2 ^ N - 1)) = 2 ^ N - 1
  exact Nat.zero_xor _

/-- Masking a value below 2 ^ N with the universe mask leaves it unchanged. -/
theorem universe_land {N : Nat} {v : Nat} (h : v < 2 ^ N) : (2 ^ N - 1) &&& v = v := by
  rw [Nat.and_comm]
  exact Nat.and_pow_two_sub_one_of_lt_two_pow h

/-- Claim C1: the claim states that s.all(m) is true iff every bit set in m is
also set in s.  The code computes (m.bits & s.bits) == s.bits, which is the
reverse inclusion: at s empty and m the singleton bit 0 (width 2), all returns
true while bit 0 of m is not set in s, contradicting the claim and the member
doc comment in the header. -/
theorem C1_all_divergence :
    kt.enum_flags.all (kt.enum_flags.mk0 2) (kt.enum_flags.ofFlag 2 0) = true ∧
    (kt.enum_flags.ofFlag 2 0).bits.val.testBit 0 = true ∧
    (kt.enum_flags.mk0 2).bits.val.testBit 0 = false := by
  decide

/-- Claim C2: s.test(m) is true iff every bit set in m is also set in s. -/
theorem C2_test_subset {N : Nat} (s m : enum_flags N) :
    s.test m = true ↔
      ∀ i : Nat, m.bits.val.testBit i = true → s.bits.val.testBit i = true := by
  show ((s.bits.val &&& m.bits.val) == m.bits.val) = true ↔ _
  rw [beq_iff_eq]
  constructor
  · intro h i hb
    have ht := congrArg (fun x => x.testBit i) h
    simp only [Nat.testBit_and, hb, Bool.and_true] at ht
    exact ht
  · intro h
    apply Nat.eq_of_testBit_eq
    intro i
    rw [Nat.testBit_and]
    cases hb : m.bits.val.testBit i with
    | false => rw [Bool.and_false]
    | true => rw [h i hb, Bool.true_and]

/-- Claim C3: the no-argument overload test() returns the number of set bits,
i.e. the number of positions below the width whose bit is set. -/
theorem C3_testCount_card {N : Nat} (s : enum_flags N) :
    s.testCount = ((Finset.range N).filter (fun i => s.bits.val.testBit i = true)).card := by
  show popCount s.bits.val = _
  rw [popCount_eq_sum N s.bits.isLt]
  simp

/-- Claim C4: for an in-bounds enumerator e, FlagSet(e) has exactly bit e set
and all other bits clear, test(e) is true, and count() is 1. -/
theorem C4_single_flag {N : Nat} (e : Fin N) :
    (∀ i : Nat, (enum_flags.ofFlag N e).bits.val.testBit i = decide (i = e.val)) ∧
    (enum_flags.ofFlag N e).test (enum_flags.ofFlag N e) = true ∧
    (enum_flags.ofFlag N e).count0 = 1 := by
  have hval : (enum_flags.ofFlag N e).bits.val = 2 ^ e.val := Nat.zero_or _
  refine ⟨?_, ?_, ?_⟩
  · intro i
    rw [hval, Nat.testBit_two_pow]
    cases h : decide (e.val = i) <;> cases h2 : decide (i = e.val) <;> simp_all
  · show ((_ &&& _) == _) = true
    rw [hval, Nat.and_self, beq_self_eq_true]
  · show popCount ((enum_flags.inverse N).bits.val &&& (enum_flags.ofFlag N e).bits.val) = 1
    rw [inverse_val, hval, universe_land (Nat.pow_lt_pow_right (by decide) e.isLt)]
    exact popCount_two_pow e.val

/-- Claim C5: a default-constructed FlagSet has all bits clear, equals the
empty bit pattern, and its set-bit count is zero. -/
theorem C5_default_clear {N : Nat} :
    (enum_flags.mk0 N).bits.val = 0 ∧
    (∀ i : Nat, (enum_flags.mk0 N).bits.val.testBit i = false) ∧
    (enum_flags.mk0 N).testCount = 0 := by
  refine ⟨rfl, ?_, ?_⟩
  · intro i
    exact Nat.zero_testBit i
  · show popCount 0 = 0
    rfl

/-- Claim C6: reset() with no argument yields the empty set from any prior
state, and count() afterwards is zero. -/
theorem C6_reset0_empty {N : Nat} (s : enum_flags N) :
    s.reset0 = enum_flags.mk0 N ∧ s.reset0.count0 = 0 := by
  have hval : s.reset0.bits.val = 0 := by
    show s.bits.val &&& ((0 ^^^ (2 ^ N - 1)) ^^^ (2 ^ N - 1)) = 0
    rw [Nat.zero_xor, Nat.xor_self, Nat.and_zero]
  constructor
  · exact enum_flags.ext_bits (Bitset.ext_val hval)
  · show popCount ((enum_flags.inverse N).bits.val &&& s.reset0.bits.val) = 0
    rw [hval, Nat.and_zero]
    rfl

/-- Claim C7: the no-argument flip() is an involution: flipping all bits twice
restores the original instance. -/
theorem C7_flip0_involution {N : Nat} (s : enum_flags N) :
    s.flip0.flip0 = s := by
  apply enum_flags.ext_bits
  apply Bitset.ext_val
  show (s.bits.val ^^^ (2 ^ N - 1)) ^^^ (2 ^ N - 1) = s.bits.val
  rw [Nat.xor_assoc, Nat.xor_self, Nat.xor_zero]

/-- Claim C8: the four-flag scenario A=0, B=1, C=2, D=3 at width 4: after
set(A) and set(C), count() is 2, test(A) is true, test(B) is false, any() is
true, none() is false; after reset(A), count() is 1 and only C is set. -/
theorem C8_scenario :
    (((enum_flags.mk0 4).set (enum_flags.ofFlag 4 0)).set (enum_flags.ofFlag 4 2)).count0 = 2 ∧
    (((enum_flags.mk0 4).set (enum_flags.ofFlag 4 0)).set (enum_flags.ofFlag 4 2)).test
      (enum_flags.ofFlag 4 0) = true ∧
    (((enum_flags.mk0 4).set (enum_flags.ofFlag 4 0)).set (enum_flags.ofFlag 4 2)).test
      (enum_flags.ofFlag 4 1) = false ∧
    (((enum_flags.mk0 4).set (enum_flags.ofFlag 4 0)).set (enum_flags.ofFlag 4 2)).any0 = true ∧
    (((enum_flags.mk0 4).set (enum_flags.ofFlag 4 0)).set (enum_flags.ofFlag 4 2)).none0 = false ∧
    ((((enum_flags.mk0 4).set (enum_flags.ofFlag 4 0)).set (enum_flags.ofFlag 4 2)).reset
      (enum_flags.ofFlag 4 0)).count0 = 1 ∧
    ∀ i : Fin 4,
      ((((enum_flags.mk0 4).set (enum_flags.ofFlag 4 0)).set (enum_flags.ofFlag 4 2)).reset
        (enum_flags.ofFlag 4 0)).bits.val.testBit i.val = decide (i.val = 2) := by
  decide

/-- Claim C9: s.none(m) is the boolean negation of s.any(m). -/
theorem C9_none_not_any {N : Nat} (s m : enum_flags N) :
    s.none m = !(s.any m) := by
  show ((m.bits.land s.bits).val == 0) = !((m.bits.land s.bits).val != 0)
  rw [bne, Bool.not_not]

/-- Claim C10: the counting overload test() agrees with count() at its default
universe mask inverse(). -/
theorem C10_testCount_count0 {N : Nat} (s : enum_flags N) :
    s.testCount = s.count0 := by
  show popCount s.bits.val = popCount ((enum_flags.inverse N).bits.val &&& s.bits.val)
  rw [inverse_val, universe_land s.bits.isLt]

end kt
